import Mathlib

/-!
Verification development for the state-management and incremental-processing
core of a Telegram knowledge-management pipeline.

The Python sources are shallowly embedded:

* `src/utils/checksum.py` — `calculate_checksum`, `has_file_changed`, over an
  abstract file system (`FileSys`) and an abstract content-hash function.
* `src/core/state.py` — the pydantic models (`FetchState`, `ProcessState`,
  `UserState`, `Statistics`, `State`) become Lean structures; dicts become
  ordered association lists with Python-dict update semantics; the
  `StateManager` methods become pure state transformers with an explicit
  `now` parameter standing in for `datetime.utcnow()`, and an explicit
  "saved" flag where a claim is about persistence happening or not.
* `src/core/processor.py` — `ProcessingReport`, the per-message loop, the
  per-file loop of `MessageProcessor.process_pending_files`, and the
  `_find_processor`/`_process_message` dispatch.  The reader/writer and
  enrichment collaborators are abstracted as an environment (`ProcEnv`):
  the orchestration claims only depend on whether those calls succeed or
  fail.  Python exceptions are modelled with `Except String`; a `raise`
  that escapes a function is an `Except.error` (or an `Option String`
  "escaping exception" component where the mutated state must survive).

Wall-clock fields (`time_elapsed`) and the threading lock are outside the
shallow embedding; `datetime.utcnow()` is an abstract tick (`Nat`).
-/

namespace KMTelegram

/-- Python-`dict` lookup over an ordered association list (first matching
key wins; keys are unique in all reachable states). -/
def dictGet {α : Type} : List (String × α) → String → Option α
  | [], _ => none
  | (k', v) :: rest, k => if k' == k then some v else dictGet rest k

/-- Python-`dict` assignment `d[k] = v`: update the value in place if the key
is present (preserving order), otherwise append the new binding. -/
def dictSet {α : Type} : List (String × α) → String → α → List (String × α)
  | [], k, v => [(k, v)]
  | (k', v') :: rest, k, v =>
    if k' == k then (k', v) :: rest else (k', v') :: dictSet rest k v

/-- Python-`dict` `del d[k]` / `Path.rename` source removal: drop the first
binding of the key. -/
def dictRemove {α : Type} : List (String × α) → String → List (String × α)
  | [], _ => []
  | (k', v') :: rest, k =>
    if k' == k then rest else (k', v') :: dictRemove rest k

/-- Python `list.remove(x)` (guarded by `if x in l` at every call site):
remove the first occurrence of `x`, identity when absent. -/
def removeFirst : List String → String → List String
  | [], _ => []
  | y :: ys, x => if y == x then ys else y :: removeFirst ys x

theorem dictGet_dictSet_self {α : Type} (d : List (String × α)) (k : String) (v : α) :
    dictGet (dictSet d k v) k = some v := by
  induction d with
  | nil => simp [dictGet, dictSet]
  | cons hd tl ih =>
    obtain ⟨k', v'⟩ := hd
    by_cases h : k' == k <;> simp [dictGet, dictSet, h, ih]

theorem dictGet_dictSet_ne {α : Type} (d : List (String × α)) (k k' : String) (v : α)
    (h : k ≠ k') : dictGet (dictSet d k v) k' = dictGet d k' := by
  induction d with
  | nil =>
    simp only [dictSet, dictGet]
    simp [beq_iff_eq, h]
  | cons hd tl ih =>
    obtain ⟨k₀, v₀⟩ := hd
    by_cases h0 : k₀ == k
    · have hk0 : k₀ = k := by simpa [beq_iff_eq] using h0
      subst hk0
      simp [dictSet, dictGet, beq_iff_eq, h]
    · by_cases h1 : k₀ == k'
      · simp [dictSet, dictGet, h0, h1]
      · simp [dictSet, dictGet, h0, h1, ih]

theorem dictGet_dictSet_len {α : Type} (d : List (String × α)) (k : String) (v : α)
    (h : dictGet d k = none) : (dictSet d k v).length = d.length + 1 := by
  induction d with
  | nil => simp [dictSet]
  | cons hd tl ih =>
    obtain ⟨k₀, v₀⟩ := hd
    by_cases h0 : k₀ == k
    · simp [dictGet, h0] at h
    · simp only [dictGet, h0, if_neg] at h
      simp [dictSet, h0, ih h]

theorem dictGet_dictRemove_ne {α : Type} (d : List (String × α)) (k k' : String)
    (h : k ≠ k') : dictGet (dictRemove d k) k' = dictGet d k' := by
  induction d with
  | nil => simp [dictRemove]
  | cons hd tl ih =>
    obtain ⟨k₀, v₀⟩ := hd
    by_cases h0 : k₀ == k
    · have hk0 : k₀ = k := by simpa [beq_iff_eq] using h0
      subst hk0
      simp [dictRemove, dictGet, beq_iff_eq, h]
    · simp [dictRemove, dictGet, h0, ih]

/-! ## Checksum engine (`src/utils/checksum.py`) -/

/-- The two exception classes `calculate_checksum` can raise. -/
inductive CkErr where
  | fileNotFound
  | ioError
  deriving DecidableEq, Repr

/-- Abstract file system seen by the checksum engine: existence test and a
byte-content read that can fail (`IOError` mid-read, or the file vanishing
between the existence check and the read). -/
structure FileSys where
  pathExists : String → Bool
  read : String → Except CkErr String

/-- `calculate_checksum(filepath)` — raises `FileNotFoundError` if the path
does not exist, otherwise hashes the content read from disk.  `hash`
abstracts SHA-256 hex digesting of the whole content (chunked reading is
digest-equivalent). -/
def calculate_checksum (fs : FileSys) (hash : String → String) (p : String) :
    Except CkErr String :=
  if fs.pathExists p then
    match fs.read p with
    | Except.ok content => Except.ok (hash content)
    | Except.error e => Except.error e
  else
    Except.error CkErr.fileNotFound

/-- `has_file_changed(filepath, stored_checksum)` — total (never raises):
`True` when no checksum is stored, the path is missing, or computing the
live digest fails or differs from the stored one. -/
def has_file_changed (fs : FileSys) (hash : String → String) (p : String)
    (stored : Option String) : Bool :=
  match stored with
  | none => true
  | some st =>
    if fs.pathExists p then
      match calculate_checksum fs hash p with
      | Except.ok current => current != st
      | Except.error _ => true
    else
      true

/-- C1: `has_file_changed` returns true when the stored digest is absent,
when the path does not exist, or when computing the live digest fails or
differs from the stored digest; it returns false exactly when the path
exists and its live digest equals the stored digest.  It is a total `Bool`
function (I/O failure is reported as changed, never propagated). -/
theorem has_file_changed_spec (fs : FileSys) (hash : String → String) (p : String)
    (stored : Option String) :
    (has_file_changed fs hash p stored = false ↔
      ∃ d, stored = some d ∧ fs.pathExists p = true ∧
        calculate_checksum fs hash p = Except.ok d) ∧
    (stored = none → has_file_changed fs hash p stored = true) ∧
    (fs.pathExists p = false → has_file_changed fs hash p stored = true) ∧
    (∀ e, calculate_checksum fs hash p = Except.error e →
      has_file_changed fs hash p stored = true) := by
  refine ⟨?_, ?_, ?_, ?_⟩
  · cases stored with
    | none => simp [has_file_changed]
    | some st =>
      by_cases hp : fs.pathExists p
      · cases hc : calculate_checksum fs hash p with
        | ok c =>
          simp only [has_file_changed, hp, if_true, hc, bne_eq_false_iff_eq,
            Option.some.injEq, Except.ok.injEq]
          constructor
          · intro h; exact ⟨st, rfl, trivial, h⟩
          · rintro ⟨d, rfl, -, hd⟩; exact hd
        | error e =>
          simp [has_file_changed, hp, hc]
      · simp only [Bool.not_eq_true] at hp
        simp [has_file_changed, hp]
  · rintro rfl; simp [has_file_changed]
  · intro hp
    cases stored with
    | none => simp [has_file_changed]
    | some st => simp [has_file_changed, hp]
  · intro e hc
    cases stored with
    | none => simp [has_file_changed]
    | some st =>
      by_cases hp : fs.pathExists p
      · simp [has_file_changed, hp, hc]
      · simp only [Bool.not_eq_true] at hp
        simp [has_file_changed, hp]

/-- A concrete file system for witnesses: every path exists and reads back
the fixed content `"content"`. -/
def fsAllOk : FileSys :=
  { pathExists := fun _ => true, read := fun _ => Except.ok "content" }

/-- Constant hash used in witnesses. -/
def hashConst : String → String := fun _ => "h"

/-- Witness for C1 at a concrete input: with no stored digest the file
counts as changed. -/
theorem has_file_changed_spec_witness :
    has_file_changed fsAllOk hashConst "a.md" none = true :=
  (has_file_changed_spec fsAllOk hashConst "a.md" none).2.1 rfl

/-! ## State model (`src/core/state.py`) -/

/-- `FetchState` — per-user fetch-phase tracking. -/
structure FetchState where
  last_message_id : Option Int := none
  last_fetch_time : Option Nat := none
  total_messages_fetched : Nat := 0
  deriving Repr, DecidableEq

/-- `ProcessState` — per-user process-phase tracking; `file_checksums` is a
Python dict (ordered assoc list), `pending_files` a Python list. -/
structure ProcessState where
  last_processed_date : Option String := none
  last_process_time : Option Nat := none
  total_messages_processed : Nat := 0
  file_checksums : List (String × String) := []
  pending_files : List String := []
  deriving Repr, DecidableEq

/-- `UserState` — state for a single user. -/
structure UserState where
  chat_id : Int
  phone : Option String := none
  first_seen : Option Nat := none
  last_seen : Option Nat := none
  fetch_state : FetchState := {}
  process_state : ProcessState := {}
  deriving Repr, DecidableEq

/-- `Statistics` — global counters. -/
structure Statistics where
  total_users : Nat := 0
  total_messages_fetched : Nat := 0
  total_messages_processed : Nat := 0
  total_media : Nat := 0
  total_transcriptions : Nat := 0
  total_summaries : Nat := 0
  total_ocr : Nat := 0
  total_tags : Nat := 0
  total_links_extracted : Nat := 0
  deriving Repr, DecidableEq

/-- `State` — the root persisted document. -/
structure State where
  version : String := "2.0"
  last_updated : Nat := 0
  users : List (String × UserState) := []
  statistics : Statistics := {}
  deriving Repr, DecidableEq

/-- `State()` with all pydantic defaults; `last_updated` defaults to
`datetime.utcnow()`, the abstract tick `now`. -/
def defaultState (now : Nat) : State :=
  { last_updated := now }

/-- `StateManager.save` as seen by the in-memory state: stamp `last_updated`
to now.  (The atomic file write itself is outside this embedding; claims
about persistence *happening* are modelled with explicit flags.) -/
def saveStamp (now : Nat) (s : State) : State :=
  { s with last_updated := now }

/-- `StateManager.ensure_user_exists` — returns the existing `UserState`
untouched, or creates, registers, recounts users and saves. -/
def ensure_user_exists (now : Nat) (username : String) (chat_id : Int)
    (phone : Option String) (first_seen : Option Nat) (s : State) :
    State × UserState :=
  match dictGet s.users username with
  | some u => (s, u)
  | none =>
    let u : UserState :=
      { chat_id := chat_id, phone := phone,
        first_seen := some (first_seen.getD now) }
    let users' := dictSet s.users username u
    (saveStamp now
      { s with users := users',
               statistics := { s.statistics with total_users := users'.length } },
     u)

/-- `StateManager.update_fetch_state` — raises `ValueError` for an unknown
user; otherwise overwrites `last_message_id` when one is provided, stamps
`last_fetch_time`/`last_seen`, adds `message_count` to the per-user and
global fetched counters, and saves. -/
def update_fetch_state (now : Nat) (username : String)
    (last_message_id : Option Int) (message_count : Nat) (s : State) :
    Except String State :=
  match dictGet s.users username with
  | none =>
    Except.error ("User " ++ username ++ " not found in state. Call ensure_user_exists first.")
  | some u =>
    let fs1 : FetchState :=
      { last_message_id :=
          match last_message_id with
          | some v => some v
          | none => u.fetch_state.last_message_id,
        last_fetch_time := some now,
        total_messages_fetched := u.fetch_state.total_messages_fetched + message_count }
    let u' := { u with fetch_state := fs1, last_seen := some now }
    Except.ok (saveStamp now
      { s with users := dictSet s.users username u',
               statistics := { s.statistics with
                 total_messages_fetched :=
                   s.statistics.total_messages_fetched + message_count } })

/-- `StateManager.add_pending_file` — appends only if absent; the `Bool`
records whether `save` was called (it is not when nothing changed). -/
def add_pending_file (now : Nat) (username : String) (filepath : String)
    (s : State) : Except String (State × Bool) :=
  match dictGet s.users username with
  | none => Except.error ("User " ++ username ++ " not found in state.")
  | some u =>
    if filepath ∈ u.process_state.pending_files then
      Except.ok (s, false)
    else
      let u' := { u with process_state :=
        { u.process_state with
          pending_files := u.process_state.pending_files ++ [filepath] } }
      Except.ok (saveStamp now { s with users := dictSet s.users username u' }, true)

/-- `StateManager.get_pending_files` — defensive copy; empty for unknown
users. -/
def get_pending_files (username : String) (s : State) : List String :=
  match dictGet s.users username with
  | none => []
  | some u => u.process_state.pending_files

/-- `StateManager.mark_file_processed` — stores the checksum, removes the
file from `pending_files` when present (safe no-op when absent), advances
the processed counters, and saves. -/
def mark_file_processed (now : Nat) (username : String) (filepath : String)
    (checksum : String) (message_count : Nat) (s : State) : Except String State :=
  match dictGet s.users username with
  | none => Except.error ("User " ++ username ++ " not found in state.")
  | some u =>
    let ps1 : ProcessState :=
      { u.process_state with
        file_checksums := dictSet u.process_state.file_checksums filepath checksum,
        pending_files := removeFirst u.process_state.pending_files filepath,
        last_process_time := some now,
        total_messages_processed :=
          u.process_state.total_messages_processed + message_count }
    Except.ok (saveStamp now
      { s with users := dictSet s.users username { u with process_state := ps1 },
               statistics := { s.statistics with
                 total_messages_processed :=
                   s.statistics.total_messages_processed + message_count } })

/-- `StateManager.get_file_checksum` — pure lookup, `none` for unknown user
or file. -/
def get_file_checksum (username : String) (filepath : String) (s : State) :
    Option String :=
  match dictGet s.users username with
  | none => none
  | some u => dictGet u.process_state.file_checksums filepath

/-- Watermark read-back helper: the `last_message_id` stored for a user. -/
def fetchWatermark (username : String) (s : State) : Option Int :=
  match dictGet s.users username with
  | none => none
  | some u => u.fetch_state.last_message_id

theorem removeFirst_of_not_mem (l : List String) (x : String) (h : x ∉ l) :
    removeFirst l x = l := by
  induction l with
  | nil => rfl
  | cons y ys ih =>
    have hxy : ¬(y == x) := by
      simp only [beq_iff_eq]
      rintro rfl
      exact h (List.mem_cons_self _ _)
    have hys : x ∉ ys := fun hx => h (List.mem_cons_of_mem _ hx)
    simp [removeFirst, hxy, ih hys]

theorem not_mem_removeFirst_of_count_le_one (l : List String) (x : String)
    (h : l.count x ≤ 1) : x ∉ removeFirst l x := by
  induction l with
  | nil => simp [removeFirst]
  | cons y ys ih =>
    by_cases hxy : y == x
    · have hyx : y = x := by simpa [beq_iff_eq] using hxy
      have hc : (y :: ys).count x = ys.count x + 1 := by
        rw [hyx]; exact List.count_cons_self x ys
      rw [hc] at h
      have hcount : ys.count x = 0 := by omega
      have hnot : x ∉ ys := List.count_eq_zero.mp hcount
      simpa [removeFirst, hxy] using hnot
    · have hyx : y ≠ x := by simpa [beq_iff_eq] using hxy
      have hcount : ys.count x ≤ 1 := by
        rwa [List.count_cons_of_ne (Ne.symm hyx) ys] at h
      intro hmem
      simp only [removeFirst, if_neg hxy] at hmem
      rcases List.mem_cons.mp hmem with h1 | h2
      · exact hyx h1.symm
      · exact ih hcount h2

/-! ## C3 / C5 / C6 — State Store claims -/

/-- C3: `pending_files` has set semantics over an ordered list.  For an
existing user: adding an already-present filepath changes nothing and does
not persist; adding an absent one appends it (and a second add of the same
path is then a persisted-nothing no-op, leaving exactly one entry);
`mark_file_processed` removes the first occurrence from `pending_files`,
is a safe no-op on the pending list when the path is absent, and is
idempotent on the pending list when called twice (given the no-duplicates
invariant). -/
theorem pending_files_set_semantics
    (now now' now'' now''' : Nat) (username filepath ck ck' : String)
    (mc mc' : Nat) (u : UserState) (s : State)
    (hu : dictGet s.users username = some u) :
    (filepath ∈ u.process_state.pending_files →
      add_pending_file now username filepath s = Except.ok (s, false)) ∧
    (add_pending_file now username filepath s).isOk = true ∧
    (filepath ∉ u.process_state.pending_files →
      ∀ s' saved, add_pending_file now username filepath s = Except.ok (s', saved) →
        saved = true ∧
        get_pending_files username s'
          = u.process_state.pending_files ++ [filepath] ∧
        (get_pending_files username s').count filepath = 1 ∧
        add_pending_file now' username filepath s' = Except.ok (s', false)) ∧
    (mark_file_processed now'' username filepath ck mc s).isOk = true ∧
    (∀ s₂, mark_file_processed now'' username filepath ck mc s = Except.ok s₂ →
      get_pending_files username s₂
        = removeFirst u.process_state.pending_files filepath ∧
      (filepath ∉ u.process_state.pending_files →
        get_pending_files username s₂ = u.process_state.pending_files) ∧
      (mark_file_processed now''' username filepath ck' mc' s₂).isOk = true ∧
      (u.process_state.pending_files.count filepath ≤ 1 →
        ∀ s₃, mark_file_processed now''' username filepath ck' mc' s₂ = Except.ok s₃ →
          get_pending_files username s₃ = get_pending_files username s₂)) := by
  refine ⟨?_, ?_, ?_, ?_, ?_⟩
  · intro hmem
    simp [add_pending_file, hu, hmem]
  · by_cases hmem : filepath ∈ u.process_state.pending_files <;>
      simp [add_pending_file, hu, hmem, Except.isOk, Except.toBool]
  · intro hmem s' saved h
    simp only [add_pending_file, hu] at h
    rw [if_neg hmem] at h
    simp only [Except.ok.injEq, Prod.mk.injEq] at h
    rcases h with ⟨rfl, rfl⟩
    refine ⟨rfl, ?_, ?_, ?_⟩
    · simp [get_pending_files, saveStamp, dictGet_dictSet_self]
    · simp [get_pending_files, saveStamp, dictGet_dictSet_self,
        List.count_append, List.count_eq_zero.mpr hmem]
    · simp [add_pending_file, saveStamp, dictGet_dictSet_self]
  · simp [mark_file_processed, hu, Except.isOk, Except.toBool]
  · intro s₂ h
    simp only [mark_file_processed, hu, Except.ok.injEq] at h
    subst h
    refine ⟨?_, ?_, ?_, ?_⟩
    · simp [get_pending_files, saveStamp, dictGet_dictSet_self]
    · intro hmem
      simp [get_pending_files, saveStamp, dictGet_dictSet_self,
        removeFirst_of_not_mem _ _ hmem]
    · simp [mark_file_processed, saveStamp, dictGet_dictSet_self, Except.isOk, Except.toBool]
    · intro hcount s₃ h₃
      have hnot : filepath ∉ removeFirst u.process_state.pending_files filepath :=
        not_mem_removeFirst_of_count_le_one _ _ hcount
      simp only [mark_file_processed, saveStamp, dictGet_dictSet_self,
        Except.ok.injEq] at h₃
      subst h₃
      simp [get_pending_files, saveStamp, dictGet_dictSet_self,
        dictGet_dictSet_self, removeFirst_of_not_mem _ _ hnot]

/-- Concrete one-user state for witnesses: user `"alice"` with chat id 1
and empty fetch/process state. -/
def aliceState : State :=
  { users := [("alice", { chat_id := 1 })] }

/-- Witness for C3 at a concrete input: adding a file to alice's empty
pending list succeeds. -/
theorem pending_files_set_semantics_witness :
    (add_pending_file 1 "alice" "f.md" aliceState).isOk = true :=
  (pending_files_set_semantics 1 2 3 4 "alice" "f.md" "c" "c" 0 0
    { chat_id := 1 } aliceState rfl).2.1

/-- C5: `ensure_user_exists` is idempotent.  The first call for an absent
username registers a new user (user count and `total_users` statistic grow
by exactly one — the statistic is recomputed as the dict size); any
subsequent call with the same username returns the stored `UserState`
unchanged regardless of the arguments passed, mutating nothing. -/
theorem ensure_user_exists_idempotent
    (now now' : Nat) (username : String) (cid cid' : Int)
    (ph ph' : Option String) (fsn fsn' : Option Nat) (s : State) :
    (dictGet s.users username = none →
      (ensure_user_exists now username cid ph fsn s).1.users.length
          = s.users.length + 1 ∧
      (ensure_user_exists now username cid ph fsn s).1.statistics.total_users
          = s.users.length + 1 ∧
      (s.statistics.total_users = s.users.length →
        (ensure_user_exists now username cid ph fsn s).1.statistics.total_users
          = s.statistics.total_users + 1) ∧
      dictGet (ensure_user_exists now username cid ph fsn s).1.users username
          = some (ensure_user_exists now username cid ph fsn s).2 ∧
      (ensure_user_exists now username cid ph fsn s).2.chat_id = cid ∧
      ensure_user_exists now' username cid' ph' fsn'
          (ensure_user_exists now username cid ph fsn s).1
        = ((ensure_user_exists now username cid ph fsn s).1,
           (ensure_user_exists now username cid ph fsn s).2)) ∧
    (∀ u0, dictGet s.users username = some u0 →
      ensure_user_exists now' username cid' ph' fsn' s = (s, u0)) := by
  constructor
  · intro h
    refine ⟨?_, ?_, ?_, ?_, ?_, ?_⟩
    · simp only [ensure_user_exists, h, saveStamp]
      exact dictGet_dictSet_len s.users username _ h
    · simp only [ensure_user_exists, h, saveStamp]
      exact dictGet_dictSet_len s.users username _ h
    · intro hsync
      simp only [ensure_user_exists, h, saveStamp]
      rw [dictGet_dictSet_len s.users username _ h, hsync]
    · simp only [ensure_user_exists, h, saveStamp]
      exact dictGet_dictSet_self ..
    · simp [ensure_user_exists, h]
    · simp only [ensure_user_exists, h, saveStamp]
      simp [ensure_user_exists, dictGet_dictSet_self]
  · intro u0 h
    simp [ensure_user_exists, h]

/-- Witness for C5 at a concrete input: creating `"bob"` in the fresh
default state bumps the user count from 0 to 1. -/
theorem ensure_user_exists_idempotent_witness :
    (ensure_user_exists 1 "bob" 7 none none (defaultState 0)).1.users.length
        = (defaultState 0).users.length + 1 :=
  ((ensure_user_exists_idempotent 1 2 "bob" 7 9 none none none none
      (defaultState 0)).1 rfl).1

/-- C6 counterexample: `last_message_id` is *not* a monotone watermark.
Starting from alice's fresh state, a fetch update with id 5 followed by a
fetch update with id 3 leaves the watermark at 3, strictly below 5 — the
code overwrites the watermark with whatever id is provided. -/
theorem update_fetch_state_not_monotone :
    ((update_fetch_state 1 "alice" (some 5) 0 aliceState).toOption.map
        (fetchWatermark "alice")) = some (some 5) ∧
    ((update_fetch_state 1 "alice" (some 5) 0 aliceState).toOption.bind
        (fun s1 => (update_fetch_state 2 "alice" (some 3) 0 s1).toOption.map
          (fetchWatermark "alice"))) = some (some 3) ∧
    (3 : Int) < 5 := by
  decide

/-- C6 amended: `update_fetch_state` overwrites `last_message_id` with the
provided id whenever one is provided (so an explicitly smaller id makes
the watermark decrease) and leaves it unchanged when none is provided;
hence the watermark never decreases across calls whose provided ids are
absent or at least the current watermark. -/
theorem update_fetch_state_watermark
    (now : Nat) (username : String) (arg : Option Int) (mc : Nat)
    (u : UserState) (s : State) (hu : dictGet s.users username = some u) :
    (update_fetch_state now username arg mc s).isOk = true ∧
    (∀ s', update_fetch_state now username arg mc s = Except.ok s' →
      fetchWatermark username s'
        = (match arg with
           | some v => some v
           | none => u.fetch_state.last_message_id) ∧
      (∀ v, u.fetch_state.last_message_id = some v →
        (arg = none ∨ ∃ w, arg = some w ∧ v ≤ w) →
        ∃ v', fetchWatermark username s' = some v' ∧ v ≤ v')) := by
  refine ⟨?_, ?_⟩
  · simp [update_fetch_state, hu, Except.isOk, Except.toBool]
  · intro s' h
    simp only [update_fetch_state, hu, Except.ok.injEq] at h
    subst h
    refine ⟨?_, ?_⟩
    · simp [fetchWatermark, saveStamp, dictGet_dictSet_self]
    · intro v hv harg
      rcases harg with rfl | ⟨w, rfl, hw⟩
      · exact ⟨v, by simp [fetchWatermark, saveStamp, dictGet_dictSet_self, hv], le_refl v⟩
      · exact ⟨w, by simp [fetchWatermark, saveStamp, dictGet_dictSet_self], hw⟩

/-- Witness for C6's amended theorem at a concrete input: updating alice
with id 5 succeeds. -/
theorem update_fetch_state_watermark_witness :
    (update_fetch_state 1 "alice" (some 5) 0 aliceState).isOk = true :=
  (update_fetch_state_watermark 1 "alice" (some 5) 0 { chat_id := 1 } aliceState rfl).1

/-! ## State persistence and corruption recovery (`StateManager.load`,
`StateManager._write_state` in `src/core/state.py`) -/

/-- JSON values as returned by `json.load`. -/
inductive Json where
  | null
  | bool (b : Bool)
  | num (n : Int)
  | str (s : String)
  | arr (elems : List Json)
  | obj (fields : List (String × Json))

/-- What the bytes of a file on disk amount to for `load`: not parsable as
JSON at all, or some JSON value. -/
inductive Doc where
  | notJson (raw : String)
  | jsonVal (j : Json)

/-- The on-disk directory: path → document. -/
abbrev Files := List (String × Doc)

/-- Scan a reversed character list for the final extension dot of the last
path component; `some rest` strips the dot and extension. -/
def dropExtRev : List Char → Option (List Char)
  | [] => none
  | c :: rest =>
    if c = '.' then some rest
    else if c = '/' then none
    else dropExtRev rest

/-- `Path.with_suffix(suf)` on string paths: replace the final extension of
the last component with `suf` (append when there is none). -/
def withSuffix (p : String) (suf : String) : String :=
  match dropExtRev p.toList.reverse with
  | some rest => String.mk rest.reverse ++ suf
  | none => p ++ suf

/-- `StateManager._write_state`: best-effort `.bak` copy of the existing
file, then the write-temp-and-rename collapsed to an atomic overwrite.
`toJson` abstracts the pydantic `model_dump` serialization. -/
def write_state (toJson : State → Json) (stateFile : String) (st : State)
    (fs : Files) : Files :=
  let fs1 :=
    match dictGet fs stateFile with
    | some d => dictSet fs (withSuffix stateFile ".json.bak") d
    | none => fs
  dictSet fs1 stateFile (Doc.jsonVal (toJson st))

/-- The corrupt-state branch of `load`: rename the corrupt file (content
`doc`) to the `.json.backup` sidecar, construct a fresh default `State`,
persist it, return it. -/
def loadRecover (toJson : State → Json) (now : Nat) (stateFile : String)
    (doc : Doc) (fs : Files) : Except String (Files × State) :=
  let backup := withSuffix stateFile ".json.backup"
  let fs1 := dictSet (dictRemove fs stateFile) backup doc
  let st := defaultState now
  Except.ok (write_state toJson stateFile st fs1, st)

/-- `StateManager.load`.  A missing file produces a fresh persisted state.
JSON syntax errors (`json.JSONDecodeError`) and pydantic validation errors
(`ValidationError`) are both `ValueError`s, caught by the
`except (json.JSONDecodeError, ValueError)` clause, triggering recovery;
`validate` abstracts pydantic's validation of a JSON *object*.  A valid
JSON document whose top level is not an object never reaches validation:
CPython raises `TypeError` on `State(**data)`, which the clause does not
catch, so `load` raises. -/
def load (validate : List (String × Json) → Except String State)
    (toJson : State → Json) (now : Nat) (stateFile : String) (fs : Files) :
    Except String (Files × State) :=
  match dictGet fs stateFile with
  | none =>
    let st := defaultState now
    Except.ok (write_state toJson stateFile st fs, st)
  | some (Doc.notJson _r) =>
    loadRecover toJson now stateFile (Doc.notJson _r) fs
  | some (Doc.jsonVal j) =>
    match j with
    | Json.obj fields =>
      match validate fields with
      | Except.ok st => Except.ok (fs, st)
      | Except.error _ =>
        loadRecover toJson now stateFile (Doc.jsonVal (Json.obj fields)) fs
    | _ => Except.error "TypeError: argument after ** must be a mapping"

theorem dictGet_eq_none_of_not_mem_keys {α : Type} (d : List (String × α))
    (k : String) (h : k ∉ d.map Prod.fst) : dictGet d k = none := by
  induction d with
  | nil => rfl
  | cons hd tl ih =>
    obtain ⟨k₀, v₀⟩ := hd
    simp only [List.map_cons, List.mem_cons] at h
    push_neg at h
    have hk : ¬(k₀ == k) := by
      simp only [beq_iff_eq]
      intro he
      exact h.1 he.symm
    simp [dictGet, hk, ih h.2]

theorem dictGet_dictRemove_self_of_nodup {α : Type} (d : List (String × α))
    (k : String) (h : (d.map Prod.fst).Nodup) :
    dictGet (dictRemove d k) k = none := by
  induction d with
  | nil => rfl
  | cons hd tl ih =>
    obtain ⟨k₀, v₀⟩ := hd
    simp only [List.map_cons, List.nodup_cons] at h
    by_cases h0 : k₀ == k
    · have hk0 : k₀ = k := by simpa [beq_iff_eq] using h0
      subst hk0
      have hrem : dictRemove ((k₀, v₀) :: tl) k₀ = tl := by
        simp [dictRemove]
      rw [hrem]
      exact dictGet_eq_none_of_not_mem_keys tl k₀ h.1
    · simp [dictRemove, dictGet, h0, ih h.2]

/-- C4 counterexample: a state file holding the valid JSON document `[]` is
not parsable as a valid `State`, yet `load` raises instead of recovering —
`State(**data)` on a non-mapping raises `TypeError`, which the
`except (json.JSONDecodeError, ValueError)` clause does not catch.  (The
validator is never consulted on this path; a lenient always-accepting one
is used to stress that.) -/
theorem load_raises_on_non_object_json :
    load (fun _ => Except.ok (defaultState 0)) (fun _ => Json.null) 0
        "data/state.json" [("data/state.json", Doc.jsonVal (Json.arr []))]
      = Except.error "TypeError: argument after ** must be a mapping" := rfl

/-- C4 amended: for every on-disk state file whose contents fail to parse
as JSON, or parse to a JSON *object* that is not a valid `State`, `load`
does not raise: it renames the corrupt file aside to the `.json.backup`
sidecar (never deletes it), constructs a fresh default `State`, persists
it, and returns it.  A valid JSON document whose top level is not an
object instead escapes as an uncaught `TypeError` (see the
counterexample). -/
theorem load_corrupt_recovers
    (validate : List (String × Json) → Except String State)
    (toJson : State → Json) (now : Nat) (stateFile : String) (fs : Files)
    (doc : Doc)
    (hdoc : dictGet fs stateFile = some doc)
    (hbad : (∃ r, doc = Doc.notJson r) ∨
      (∃ flds e, doc = Doc.jsonVal (Json.obj flds) ∧
        validate flds = Except.error e))
    (hne : withSuffix stateFile ".json.backup" ≠ stateFile)
    (hnodup : (fs.map Prod.fst).Nodup) :
    load validate toJson now stateFile fs
      = Except.ok (dictSet (dictSet (dictRemove fs stateFile)
            (withSuffix stateFile ".json.backup") doc) stateFile
            (Doc.jsonVal (toJson (defaultState now))),
          defaultState now) ∧
    dictGet (dictSet (dictSet (dictRemove fs stateFile)
          (withSuffix stateFile ".json.backup") doc) stateFile
          (Doc.jsonVal (toJson (defaultState now))))
        (withSuffix stateFile ".json.backup") = some doc := by
  have hnone : dictGet (dictSet (dictRemove fs stateFile)
      (withSuffix stateFile ".json.backup") doc) stateFile = none := by
    rw [dictGet_dictSet_ne _ _ _ _ hne]
    exact dictGet_dictRemove_self_of_nodup fs stateFile hnodup
  constructor
  · rcases hbad with ⟨r, rfl⟩ | ⟨flds, e, rfl, hval⟩
    · simp only [load, hdoc, loadRecover, write_state, hnone]
    · simp only [load, hdoc, hval, loadRecover, write_state, hnone]
  · rw [dictGet_dictSet_ne _ _ _ _ (Ne.symm hne)]
    exact dictGet_dictSet_self ..

/-- Witness for C4's amended theorem at a concrete input: a syntactically
corrupt one-file directory is recovered from, the corrupt content moved to
the backup path. -/
theorem load_corrupt_recovers_witness :
    load (fun _ => Except.error "ValidationError") (fun _ => Json.null) 7
        "data/state.json" [("data/state.json", Doc.notJson "oops")]
      = Except.ok (dictSet (dictSet
            (dictRemove [("data/state.json", Doc.notJson "oops")] "data/state.json")
            (withSuffix "data/state.json" ".json.backup") (Doc.notJson "oops"))
            "data/state.json" (Doc.jsonVal Json.null),
          defaultState 7) :=
  (load_corrupt_recovers (fun _ => Except.error "ValidationError")
    (fun _ => Json.null) 7 "data/state.json"
    [("data/state.json", Doc.notJson "oops")] (Doc.notJson "oops") rfl
    (Or.inl ⟨"oops", rfl⟩) (by decide) (by simp)).1

/-! ## Processing orchestration (`src/core/processor.py`) -/

/-- A staged Telegram message — the fields the orchestrator inspects. -/
structure Message where
  message_id : Int
  message_type : String
  text : Option String
  deriving Repr, DecidableEq

/-- The `ProcessedResult` fields the report counters inspect. -/
structure ProcessedResult where
  transcript_file : Option String := none
  summary : Option String := none
  ocr_text : Option String := none
  tags : List String := []
  links : List String := []
  deriving Repr, DecidableEq

/-- `ProcessingReport` (without the wall-clock `time_elapsed`). -/
structure ProcessingReport where
  users_processed : Nat := 0
  files_processed : Nat := 0
  messages_processed : Nat := 0
  messages_skipped : Nat := 0
  transcriptions : Nat := 0
  ocr_performed : Nat := 0
  summaries_generated : Nat := 0
  tags_generated : Nat := 0
  links_extracted : Nat := 0
  errors : Nat := 0
  error_details : List String := []
  deriving Repr, DecidableEq

/-- Python truthiness of an `Optional[str]` (`if result.summary:` is false
for both `None` and `""`). -/
def truthyOptStr : Option String → Bool
  | none => false
  | some s => s != ""

/-- The per-message counter updates after a successful `_process_message`
and `append_entry` (processor.py lines 185-198). -/
def bumpReport (r : ProcessingReport) (res : ProcessedResult) : ProcessingReport :=
  let r := { r with messages_processed := r.messages_processed + 1 }
  let r := if truthyOptStr res.transcript_file then
    { r with transcriptions := r.transcriptions + 1 } else r
  let r := if truthyOptStr res.summary then
    { r with summaries_generated := r.summaries_generated + 1 } else r
  let r := if truthyOptStr res.ocr_text then
    { r with ocr_performed := r.ocr_performed + 1 } else r
  let r := if res.tags.isEmpty then r else
    { r with tags_generated := r.tags_generated + res.tags.length }
  if res.links.isEmpty then r else
    { r with links_extracted := r.links_extracted + res.links.length }

/-- Collaborator environment for `process_pending_files`: the file system
and hash function feeding the checksum engine, the staging reader
(`StagingReader.read_file`), the per-message pipeline (`_process_message`
plus `ProcessedWriter.append_entry`, combined — these claims depend only
on success and failure), and the `config.processing.skip_errors` flag. -/
structure ProcEnv where
  fs : FileSys
  hash : String → String
  readMessages : String → Except String (List Message)
  procMessage : Message → Except String ProcessedResult
  skip_errors : Bool

/-- `Path.name`: the final path component. -/
def baseName (p : String) : String :=
  match (p.splitOn "/").getLast? with
  | some n => n
  | none => p

/-- `str(e)` for the exceptions `calculate_checksum` raises. -/
def ckErrStr (p : String) : CkErr → String
  | CkErr.fileNotFound => "File not found: " ++ p
  | CkErr.ioError => "I/O error reading " ++ p

/-- The per-message loop of `process_pending_files` (processor.py lines
173-205).  Success feeds `bumpReport`; failure increments `errors`,
appends a `Message {id}: {exc}` detail and moves to the next message —
unless `skip_errors` is false, in which case the exception re-raises
(the `Option String` component).  `mp` is the local `messages_processed`
accumulator. -/
def processMessages (env : ProcEnv) :
    List Message → ProcessingReport → Nat → ProcessingReport × Nat × Option String
  | [], r, mp => (r, mp, none)
  | m :: rest, r, mp =>
    match env.procMessage m with
    | Except.ok res => processMessages env rest (bumpReport r res) (mp + 1)
    | Except.error e =>
      let r' := { r with
        errors := r.errors + 1,
        error_details := r.error_details ++
          ["Message " ++ toString m.message_id ++ ": " ++ e] }
      if env.skip_errors then processMessages env rest r' mp
      else (r', mp, some e)

/-- Stale pending-reference cleanup (processor.py lines 139-147): the
vanished file is dropped from the user's pending list and the state saved
(the `load()` there re-reads what the single process just persisted, i.e.
the current state). -/
def dropStalePending (now : Nat) (username : String) (f : String) (s : State) :
    State :=
  match dictGet s.users username with
  | none => s
  | some u =>
    if f ∈ u.process_state.pending_files then
      saveStamp now { s with
        users := dictSet s.users username { u with
          process_state := { u.process_state with
            pending_files := removeFirst u.process_state.pending_files f } } }
    else s

/-- The outer `except Exception` handler of the per-file loop (processor.py
lines 213-218): count the error, record a `File {name}: {exc}` detail, and
re-raise when `skip_errors` is false. -/
def fileFailure (env : ProcEnv) (s : State) (r : ProcessingReport) (f : String)
    (e : String) : State × ProcessingReport × Option String :=
  (s,
   { r with
     errors := r.errors + 1,
     error_details := r.error_details ++ ["File " ++ baseName f ++ ": " ++ e] },
   if env.skip_errors then none else some e)

/-- One iteration of the `for staging_file_str in pending_files` loop of
`MessageProcessor.process_pending_files` (processor.py lines 134-218). -/
def processOneFile (env : ProcEnv) (now : Nat) (username : String)
    (reprocess : Bool) (f : String) (s : State) (r : ProcessingReport) :
    State × ProcessingReport × Option String :=
  if env.fs.pathExists f = false then
    (dropStalePending now username f s, r, none)
  else
    match calculate_checksum env.fs env.hash f with
    | Except.error e => fileFailure env s r f (ckErrStr f e)
    | Except.ok current =>
      if ¬reprocess ∧
          has_file_changed env.fs env.hash f (get_file_checksum username f s)
            = false then
        (s, { r with messages_skipped := r.messages_skipped + 1 }, none)
      else
        match env.readMessages f with
        | Except.error e => fileFailure env s r f e
        | Except.ok msgs =>
          if msgs.isEmpty then
            match mark_file_processed now username f current 0 s with
            | Except.ok s' => (s', r, none)
            | Except.error e => fileFailure env s r f e
          else
            match processMessages env msgs r 0 with
            | (r₁, _mp, some e) => fileFailure env s r₁ f e
            | (r₁, mp, none) =>
              match mark_file_processed now username f current mp s with
              | Except.ok s' =>
                (s', { r₁ with files_processed := r₁.files_processed + 1 }, none)
              | Except.error e => fileFailure env s r₁ f e

/-- The `for staging_file_str in pending_files` loop itself: threads state
and report; an escaping exception aborts the loop. -/
def processFilesLoop (env : ProcEnv) (now : Nat) (username : String)
    (reprocess : Bool) : List String → State → ProcessingReport →
    State × ProcessingReport × Option String
  | [], s, r => (s, r, none)
  | f :: rest, s, r =>
    match processOneFile env now username reprocess f s r with
    | (s', r', some e) => (s', r', some e)
    | (s', r', none) => processFilesLoop env now username reprocess rest s' r'

/-- `MessageProcessor.process_pending_files` (without `time_elapsed`):
snapshot the pending list, walk it, then stamp `users_processed := 1`; an
escaping exception (only possible when `skip_errors` is false) leaves the
report unstamped, as the Python `raise` discards it. -/
def process_pending_files (env : ProcEnv) (now : Nat) (username : String)
    (reprocess : Bool) (s : State) : State × ProcessingReport × Option String :=
  let pending := get_pending_files username s
  if pending.isEmpty then (s, {}, none)
  else
    match processFilesLoop env now username reprocess pending s {} with
    | (s', r', some e) => (s', r', some e)
    | (s', r', none) => (s', { r' with users_processed := 1 }, none)

/-- A message processor of the chain: a tag naming the concrete class
(`src/processors/*.py`) and its `can_process` predicate. -/
structure Processor where
  tag : String
  canProcess : Message → Bool

/-- `MessageProcessor._find_processor`: the first processor whose
`can_process` returns true, if any. -/
def find_processor (ps : List Processor) (m : Message) : Option Processor :=
  ps.find? (fun p => p.canProcess m)

/-- The handler-selection logic of `MessageProcessor._process_message`
(processor.py lines 304-314): first match; else fall back to
`processors[0]`; else raise `ValueError`. -/
def select_processor (ps : List Processor) (m : Message) :
    Except String Processor :=
  match find_processor ps m with
  | some p => Except.ok p
  | none =>
    match ps with
    | [] => Except.error ("No processors available to handle message "
        ++ toString m.message_id)
    | p :: _ => Except.ok p

/-- `TextProcessor.can_process` (`src/processors/text.py`). -/
def textCanProcess (m : Message) : Bool :=
  m.message_type == "text" && m.text.isSome

/-- `MediaProcessor.can_process` (`src/processors/media.py`). -/
def mediaCanProcess (m : Message) : Bool :=
  m.message_type == "photo" || m.message_type == "image"
    || m.message_type == "document"

/-- `AudioVideoProcessor.can_process` (`src/processors/audio_video.py`). -/
def audioVideoCanProcess (m : Message) : Bool :=
  m.message_type == "audio" || m.message_type == "video"
    || m.message_type == "voice"

/-- `LinkProcessor.can_process` (`src/processors/link.py`);
`extractUrls` and `isYoutubeUrl` abstract the `src/utils` helpers. -/
def linkCanProcess (extractUrls : String → List String)
    (isYoutubeUrl : String → Bool) (m : Message) : Bool :=
  match m.text with
  | none => false
  | some t =>
    if m.message_type == "link" && t != "" then
      let urls := extractUrls t
      !urls.isEmpty && urls.any (fun u => !isYoutubeUrl u)
    else false

/-- `YouTubeProcessor.can_process` (`src/processors/youtube.py`). -/
def youtubeCanProcess (extractUrls : String → List String)
    (isYoutubeUrl : String → Bool) (m : Message) : Bool :=
  match m.text with
  | none => false
  | some t =>
    if m.message_type == "link" && t != "" then
      let urls := extractUrls t
      !urls.isEmpty && urls.any (fun u => isYoutubeUrl u)
    else false

/-- The processor chain in the order `src/main.py` assembles it — the
`TextProcessor` first, so it is the `processors[0]` fallback. -/
def mainProcessors (extractUrls : String → List String)
    (isYoutubeUrl : String → Bool) : List Processor :=
  [ { tag := "text", canProcess := textCanProcess },
    { tag := "media", canProcess := mediaCanProcess },
    { tag := "audio_video", canProcess := audioVideoCanProcess },
    { tag := "link", canProcess := linkCanProcess extractUrls isYoutubeUrl },
    { tag := "youtube", canProcess := youtubeCanProcess extractUrls isYoutubeUrl } ]

theorem has_file_changed_false_elim (fs : FileSys) (hash : String → String)
    (p : String) (stored : Option String)
    (h : has_file_changed fs hash p stored = false) :
    fs.pathExists p = true ∧
      ∃ d, stored = some d ∧ calculate_checksum fs hash p = Except.ok d := by
  cases stored with
  | none => simp [has_file_changed] at h
  | some st =>
    by_cases hp : fs.pathExists p
    · refine ⟨hp, st, rfl, ?_⟩
      cases hc : calculate_checksum fs hash p with
      | ok c =>
        simp only [has_file_changed, hp, if_true, hc, bne_eq_false_iff_eq] at h
        rw [h]
      | error e => simp [has_file_changed, hp, hc] at h
    · simp only [Bool.not_eq_true] at hp
      simp [has_file_changed, hp] at h

theorem processOneFile_skip_eq (env : ProcEnv) (now : Nat) (username f : String)
    (s : State) (r : ProcessingReport)
    (hch : has_file_changed env.fs env.hash f (get_file_checksum username f s)
      = false) :
    processOneFile env now username false f s r
      = (s, { r with messages_skipped := r.messages_skipped + 1 }, none) := by
  obtain ⟨hex, d, hst, hcalc⟩ := has_file_changed_false_elim _ _ _ _ hch
  simp [processOneFile, hex, hcalc, hch]

/-! ## C2 / C7 / C8 / C9 / C10 — orchestrator claims -/

/-- C2: in `process_pending_files` with `reprocess = false`, a pending
staging file that exists on disk and whose `has_file_changed` check is
false is skipped by the loop body: the report's skipped counter is
incremented and nothing else changes — the state is untouched,
`messages_processed` does not increase, and no messages from the file are
parsed or processed (the result does not depend on the staging reader or
the message pipeline at all). -/
theorem skip_unchanged_file (env : ProcEnv) (now : Nat) (username f : String)
    (s : State) (r : ProcessingReport)
    (hex : env.fs.pathExists f = true)
    (hch : has_file_changed env.fs env.hash f (get_file_checksum username f s)
      = false) :
    processOneFile env now username false f s r
      = (s, { r with messages_skipped := r.messages_skipped + 1 }, none) ∧
    (processOneFile env now username false f s r).2.1.messages_processed
      = r.messages_processed ∧
    (∀ rm pm, processOneFile { env with readMessages := rm, procMessage := pm }
        now username false f s r
      = processOneFile env now username false f s r) := by
  have h1 := processOneFile_skip_eq env now username f s r hch
  refine ⟨h1, by rw [h1], ?_⟩
  intro rm pm
  rw [h1, processOneFile_skip_eq { env with readMessages := rm, procMessage := pm }
    now username f s r hch]

/-- Concrete state for the skip witnesses: alice has `"f.md"` pending with
stored checksum `"h"`, which matches `fsAllOk`/`hashConst`. -/
def aliceProcState : State :=
  { users := [("alice",
      { chat_id := 1,
        process_state := { file_checksums := [("f.md", "h")],
                           pending_files := ["f.md"] } })] }

/-- Concrete environment for the skip witnesses. -/
def envSkip : ProcEnv :=
  { fs := fsAllOk, hash := hashConst,
    readMessages := fun _ => Except.ok [],
    procMessage := fun _ => Except.ok {},
    skip_errors := true }

/-- Witness for C2 at a concrete input. -/
theorem skip_unchanged_file_witness :
    processOneFile envSkip 1 "alice" false "f.md" aliceProcState {}
      = (aliceProcState, { messages_skipped := 1 }, none) :=
  (skip_unchanged_file envSkip 1 "alice" "f.md" aliceProcState {}
    (by decide) (by decide)).1

/-- C9: `messages_skipped` counts skipped *files*, not messages: whatever
message list the staging reader would return for the unchanged file — of
any length — skipping it increments `messages_skipped` by exactly one and
leaves `messages_processed` unchanged. -/
theorem messages_skipped_counts_files (env : ProcEnv) (now : Nat)
    (username f : String) (s : State) (r : ProcessingReport)
    (msgs : List Message)
    (hread : env.readMessages f = Except.ok msgs)
    (hch : has_file_changed env.fs env.hash f (get_file_checksum username f s)
      = false) :
    (processOneFile env now username false f s r).2.1.messages_skipped
        = r.messages_skipped + 1 ∧
    (processOneFile env now username false f s r).2.1.messages_processed
        = r.messages_processed := by
  rw [processOneFile_skip_eq env now username f s r hch]
  exact ⟨rfl, rfl⟩

/-- A three-message staging-file payload for the C9 witness. -/
def skipMsgsList : List Message :=
  [⟨1, "text", some "a"⟩, ⟨2, "text", some "b"⟩, ⟨3, "text", some "c"⟩]

/-- Environment whose staging reader yields three messages — used to
witness that the skip increment stays 1 regardless. -/
def envSkipMsgs : ProcEnv :=
  { envSkip with readMessages := fun _ => Except.ok skipMsgsList }

/-- Witness for C9 at a concrete input: a three-message staging file still
bumps the skipped counter by exactly one. -/
theorem messages_skipped_counts_files_witness :
    (processOneFile envSkipMsgs 1 "alice" false "f.md" aliceProcState {}).2.1.messages_skipped
      = 1 :=
  (messages_skipped_counts_files envSkipMsgs 1 "alice" "f.md" aliceProcState {}
    skipMsgsList (by rfl) (by decide)).1

/-- C10: skipping an unchanged pending file leaves the user's
`ProcessState` entirely unchanged: the returned state is the input state —
so the file is not removed from `pending_files` (it stays pending for the
next run), its stored checksum is untouched, the user's record is
untouched, and no exception escapes. -/
theorem skip_leaves_state_unchanged (env : ProcEnv) (now : Nat)
    (username f : String) (s : State) (r : ProcessingReport)
    (hch : has_file_changed env.fs env.hash f (get_file_checksum username f s)
      = false) :
    (processOneFile env now username false f s r).1 = s ∧
    get_pending_files username (processOneFile env now username false f s r).1
      = get_pending_files username s ∧
    get_file_checksum username f (processOneFile env now username false f s r).1
      = get_file_checksum username f s ∧
    (f ∈ get_pending_files username s →
      f ∈ get_pending_files username (processOneFile env now username false f s r).1) ∧
    dictGet (processOneFile env now username false f s r).1.users username
      = dictGet s.users username ∧
    (processOneFile env now username false f s r).2.2 = none := by
  rw [processOneFile_skip_eq env now username f s r hch]
  exact ⟨rfl, rfl, rfl, fun h => h, rfl, rfl⟩

/-- Witness for C10 at a concrete input: the state survives a skip
verbatim and the file is still pending. -/
theorem skip_leaves_state_unchanged_witness :
    (processOneFile envSkip 1 "alice" false "f.md" aliceProcState {}).1
      = aliceProcState :=
  (skip_leaves_state_unchanged envSkip 1 "alice" "f.md" aliceProcState {}
    (by decide)).1

/-- C7: a failure while processing one message of a parsed staging file is
caught, counted in the error counter, and recorded as
`Message {id}: {exc}`; the remaining messages are still attempted — unless
`skip_errors` is false, in which case the error re-raises immediately and
the remaining messages of the file are not attempted (the re-raise then
also aborts the per-file loop through the outer handler). -/
theorem per_message_failure_isolation (env : ProcEnv) (m : Message)
    (rest : List Message) (r : ProcessingReport) (mp : Nat) (e : String)
    (he : env.procMessage m = Except.error e) :
    (env.skip_errors = true →
      processMessages env (m :: rest) r mp
        = processMessages env rest
            { r with
              errors := r.errors + 1,
              error_details := r.error_details ++
                ["Message " ++ toString m.message_id ++ ": " ++ e] } mp) ∧
    (env.skip_errors = false →
      processMessages env (m :: rest) r mp
        = ({ r with
             errors := r.errors + 1,
             error_details := r.error_details ++
               ["Message " ++ toString m.message_id ++ ": " ++ e] },
           mp, some e)) := by
  constructor <;> intro hs <;> simp [processMessages, he, hs]

/-- Environment whose message pipeline always fails — used to witness the
per-message failure handling. -/
def envFail : ProcEnv :=
  { fs := fsAllOk, hash := hashConst,
    readMessages := fun _ => Except.ok [],
    procMessage := fun _ => Except.error "boom",
    skip_errors := true }

/-- Witness for C7 at a concrete input: the failing message is recorded
and the (empty) remainder still runs. -/
theorem per_message_failure_isolation_witness :
    processMessages envFail [⟨7, "text", some "x"⟩] {} 0
      = processMessages envFail []
          { errors := 1, error_details := ["Message 7: boom"] } 0 :=
  (per_message_failure_isolation envFail ⟨7, "text", some "x"⟩ [] {} 0 "boom"
    rfl).1 rfl

theorem find_processor_append_first (m : Message) (pre post : List Processor)
    (p : Processor) (hpre : ∀ q ∈ pre, q.canProcess m = false)
    (hp : p.canProcess m = true) :
    find_processor (pre ++ p :: post) m = some p := by
  induction pre with
  | nil => simp [find_processor, List.find?, hp]
  | cons q qs ih =>
    have hq : q.canProcess m = false := hpre q (by simp)
    have ih' := ih (fun x hx => hpre x (by simp [hx]))
    simp only [find_processor, List.cons_append, List.find?] at ih' ⊢
    rw [hq]
    exact ih'

/-- C8: dispatch selects exactly one handler — the first processor in the
configured list whose `can_process` predicate returns true; if none
matches, the message falls back to `processors[0]`, which in the chain
`src/main.py` assembles is the default `TextProcessor`; if the processor
list is empty, processing the message fails with a `ValueError`. -/
theorem dispatch_first_match_or_fallback
    (ps pre post : List Processor) (p : Processor) (m : Message)
    (extractUrls : String → List String) (isYoutubeUrl : String → Bool) :
    (ps = pre ++ p :: post → (∀ q ∈ pre, q.canProcess m = false) →
      p.canProcess m = true → select_processor ps m = Except.ok p) ∧
    ((∀ q ∈ ps, q.canProcess m = false) →
      ∀ q rest, ps = q :: rest → select_processor ps m = Except.ok q) ∧
    (select_processor [] m = Except.error
      ("No processors available to handle message " ++ toString m.message_id)) ∧
    ((∀ q ∈ mainProcessors extractUrls isYoutubeUrl, q.canProcess m = false) →
      select_processor (mainProcessors extractUrls isYoutubeUrl) m
        = Except.ok { tag := "text", canProcess := textCanProcess }) := by
  refine ⟨?_, ?_, rfl, ?_⟩
  · rintro rfl hpre hp
    simp [select_processor, find_processor_append_first m pre post p hpre hp]
  · intro hall q rest hps
    have hnone : find_processor ps m = none := by
      apply List.find?_eq_none.mpr
      intro x hx
      simp [hall x hx]
    subst hps
    simp [select_processor, hnone]
  · intro hall
    have hnone : find_processor (mainProcessors extractUrls isYoutubeUrl) m
        = none := by
      apply List.find?_eq_none.mpr
      intro x hx
      simp [hall x hx]
    simp only [select_processor, hnone]
    simp [mainProcessors]

/-- Witness for C8 at a concrete input: a sticker message matches no
predicate of the assembled chain and falls back to the text handler. -/
theorem dispatch_first_match_or_fallback_witness :
    select_processor (mainProcessors (fun _ => []) (fun _ => false))
        ⟨9, "sticker", none⟩
      = Except.ok { tag := "text", canProcess := textCanProcess } :=
  (dispatch_first_match_or_fallback [] [] [] ⟨"text", textCanProcess⟩
    ⟨9, "sticker", none⟩ (fun _ => []) (fun _ => false)).2.2.2 (by decide)

end KMTelegram
